import Mathlib

/-!
Verification development for the EV charging reliability pipeline
(`ev_charging_pipeline.py` and `dashboard.py`).

The pipeline generates synthetic charging-session CSV data with a seeded
pseudorandom generator, cleans it (timestamp parsing, derived
`duration_hours` and `date_key` columns), loads it into a SQLite star
schema (`dim_station`, `dim_time`, `fact_charging`) and computes grouped
KPI queries.  This file gives a shallow embedding of those operations:

* reals that the Python code manipulates as floats are modelled as exact
  rationals (`ℚ`);
* the SQLite tables are modelled as Lean lists of typed rows, with
  `INSERT OR IGNORE` / `INSERT OR REPLACE` modelled as key-based list
  operations (the physical row order inside a table is irrelevant to the
  queries, which sort their output);
* the Python `random` module (global, seeded Mersenne-Twister state) is
  modelled as an explicitly threaded generator passed into the generator
  function, so that a run is a pure function of the seed;
* `pandas`/SQL queries are modelled as list transformations translated
  clause by clause from the SQL text in the source.
-/

namespace EV

/-! ### Calendar arithmetic (proleptic Gregorian, as Python `datetime`) -/

/-- Gregorian leap-year rule, as implemented by Python's `datetime`. -/
def isLeapYear (y : Nat) : Bool :=
  y % 4 == 0 && (y % 100 != 0 || y % 400 == 0)

/-- Number of days in month `m` of year `y` (months are 1-based). -/
def monthLength (y m : Nat) : Nat :=
  if m == 2 then (if isLeapYear y then 29 else 28)
  else if m == 4 || m == 6 || m == 9 || m == 11 then 30
  else 31

/-- Days of year `y` strictly before the first day of month `m`. -/
def daysBeforeMonth (y m : Nat) : Nat :=
  [0, 31, 59, 90, 120, 151, 181, 212, 243, 273, 304, 334].getD (m - 1) 0 +
    (if 2 < m && isLeapYear y then 1 else 0)

/-- Day number of the calendar date `y-m-d` in the proleptic Gregorian
calendar, with `0001-01-01` as day `0` (Python's `date.toordinal() - 1`). -/
def daysFromCivil (y m d : Nat) : Nat :=
  365 * (y - 1) + (y - 1) / 4 - (y - 1) / 100 + (y - 1) / 400 +
    daysBeforeMonth y m + (d - 1)

/-- Inverse of `daysFromCivil`: calendar date `(y, m, d)` of a day number
(`0001-01-01` is day `0`).  Standard era-based Gregorian conversion. -/
def civilFromDays (days : Nat) : Nat × Nat × Nat :=
  let z := days + 306
  let era := z / 146097
  let doe := z % 146097
  let yoe := (doe - doe / 1460 + doe / 36524 - doe / 146096) / 365
  let y0 := yoe + era * 400
  let doy := doe - (365 * yoe + yoe / 4 - yoe / 100)
  let mp := (5 * doy + 2) / 153
  let d := doy - (153 * mp + 2) / 5 + 1
  let m := if mp < 10 then mp + 3 else mp - 9
  if m ≤ 2 then (y0 + 1, m, d) else (y0, m, d)

/-- A timestamp at minute precision, the granularity used throughout the
pipeline (the generator writes `timespec="minutes"`). -/
structure DateTime where
  year : Nat
  month : Nat
  day : Nat
  hour : Nat
  minute : Nat
deriving DecidableEq, Repr

/-- Seconds elapsed from `0001-01-01T00:00` to the timestamp; differences
of this quantity are what pandas' `total_seconds()` returns for
minute-precision timestamps. -/
def DateTime.toSeconds (t : DateTime) : Nat :=
  daysFromCivil t.year t.month t.day * 86400 + t.hour * 3600 + t.minute * 60

/-- The integer `YYYYMMDD` encoding of a timestamp's calendar date, as
produced by `strftime("%Y%m%d").astype(int)` in `process_data`. -/
def dateKeyOf (t : DateTime) : Nat :=
  t.year * 10000 + t.month * 100 + t.day

/-! ### Transformer (`process_data`) -/

/-- One row of the raw sessions CSV, after the untyped field split: the
timestamp columns are still strings, to be parsed by the transform. -/
structure RawRow where
  session_id : Nat
  station_id : Nat
  start_time : String
  end_time : String
  energy_kwh : ℚ
  success : Nat
deriving DecidableEq, Repr

/-- Decimal value of a digit character. -/
def digitVal (c : Char) : Nat := c.toNat - 48

/-- Parse an ISO-8601 minute-precision timestamp `YYYY-MM-DDTHH:MM` — the
format the pipeline's own CSV files use — validating digit positions and
calendar ranges.  Any other string is rejected, modelling a timestamp the
pandas datetime conversion cannot handle. -/
def parseTimestamp (s : String) : Option DateTime :=
  match s.data with
  | [y1, y2, y3, y4, c1, m1, m2, c2, d1, d2, c3, h1, h2, c4, n1, n2] =>
    if c1 == '-' && c2 == '-' && c3 == 'T' && c4 == ':' &&
        y1.isDigit && y2.isDigit && y3.isDigit && y4.isDigit &&
        m1.isDigit && m2.isDigit && d1.isDigit && d2.isDigit &&
        h1.isDigit && h2.isDigit && n1.isDigit && n2.isDigit then
      let y := ((digitVal y1 * 10 + digitVal y2) * 10 + digitVal y3) * 10 + digitVal y4
      let mo := digitVal m1 * 10 + digitVal m2
      let dy := digitVal d1 * 10 + digitVal d2
      let h := digitVal h1 * 10 + digitVal h2
      let mi := digitVal n1 * 10 + digitVal n2
      if 1 ≤ mo ∧ mo ≤ 12 ∧ 1 ≤ dy ∧ dy ≤ monthLength y mo ∧ h ≤ 23 ∧ mi ≤ 59 then
        some ⟨y, mo, dy, h, mi⟩
      else none
    else none
  | _ => none

/-- The batch-fatal failure of the transform on a timestamp the datetime
conversion cannot handle (spec error taxonomy: `ParseError`). -/
inductive ParseError where
  | badTimestamp : String → ParseError
deriving DecidableEq, Repr

/-- A cleaned record: the raw fields with parsed timestamps plus the two
derived columns `duration_hours` and `date_key` added by `process_data`. -/
structure TransformedRecord where
  session_id : Nat
  station_id : Nat
  start_time : DateTime
  end_time : DateTime
  energy_kwh : ℚ
  success : Nat
  duration_hours : ℚ
  date_key : Nat
deriving DecidableEq, Repr

/-- The per-row derivation of `process_data`:
`duration_hours = (end_time - start_time).total_seconds() / 3600` and
`date_key = int(start_time.strftime("%Y%m%d"))`. -/
def transformRow (r : RawRow) (s e : DateTime) : TransformedRecord :=
  { session_id := r.session_id, station_id := r.station_id,
    start_time := s, end_time := e,
    energy_kwh := r.energy_kwh, success := r.success,
    duration_hours := (((e.toSeconds : Int) - (s.toSeconds : Int) : Int) : ℚ) / 3600,
    date_key := dateKeyOf s }

/-- Function `process_data`: parse the timestamp columns and add the derived
columns.  A single unparsable timestamp fails the whole batch (pandas
raises while converting/subtracting the column), producing no records at
all; note that no check relates `end_time` to `start_time`. -/
def process_data : List RawRow → Except ParseError (List TransformedRecord)
  | [] => .ok []
  | r :: rest =>
    match parseTimestamp r.start_time, parseTimestamp r.end_time with
    | some s, some e =>
      match process_data rest with
      | .ok recs => .ok (transformRow r s e :: recs)
      | .error err => .error err
    | none, _ => .error (.badTimestamp r.start_time)
    | _, none => .error (.badTimestamp r.end_time)

/-! ### Schema store -/

/-- A row of `dim_station` (`station_id INTEGER PRIMARY KEY`). -/
structure DimStationRow where
  station_id : Nat
  station_name : String
  location : String
deriving DecidableEq, Repr

/-- A row of `dim_time` (`time_id INTEGER PRIMARY KEY`); `date` is the
ISO `YYYY-MM-DD` text stored by `date.isoformat()`. -/
structure DimTimeRow where
  time_id : Nat
  date : String
  day_of_week : String
  month : Nat
  year : Nat
deriving DecidableEq, Repr

/-- A row of `fact_charging` (`session_id INTEGER PRIMARY KEY`, with
foreign keys `station_id`, `time_id` that SQLite declares but — absent
`PRAGMA foreign_keys = ON`, which the pipeline never issues — does not
enforce). -/
structure FactRow where
  session_id : Nat
  station_id : Nat
  time_id : Nat
  energy_kwh : ℚ
  duration_hours : ℚ
  success : Nat
deriving DecidableEq, Repr

/-- The persisted store: the three tables, each as a list of rows.  The
list order stands for SQLite's physical row order, which no query in the
pipeline depends on (they all sort their output). -/
structure DB where
  dimStation : List DimStationRow
  dimTime : List DimTimeRow
  fact : List FactRow
deriving DecidableEq, Repr

/-- Function `create_database`: `CREATE TABLE IF NOT EXISTS` for the three tables
starting from a fresh database file, i.e. the empty store. -/
def create_database : DB := ⟨[], [], []⟩

/-- SQLite `INSERT OR IGNORE` keyed by `key`: the row is appended only when no
existing row carries its key. -/
def insIgnore (key : α → Nat) (t : List α) (row : α) : List α :=
  if t.any (fun r => key r == key row) then t else t ++ [row]

/-- SQLite `INSERT OR REPLACE` keyed by `key`: any existing row with the same
key is deleted and the new row is appended. -/
def insReplace (key : α → Nat) (t : List α) (row : α) : List α :=
  t.filter (fun r => !(key r == key row)) ++ [row]

/-- Model of `pandas.Series.unique` / `drop_duplicates`: the distinct values in
first-occurrence order. -/
def uniqueFirst [DecidableEq α] (l : List α) : List α :=
  l.foldl (fun acc x => if x ∈ acc then acc else acc ++ [x]) []

/-- Insert a `(date_key, start_time)` pair into a list sorted ascending
by `date_key`, after any pairs of equal key. -/
def insByKey (p : Nat × DateTime) : List (Nat × DateTime) → List (Nat × DateTime)
  | [] => [p]
  | q :: l => if p.1 < q.1 then p :: q :: l else q :: insByKey p l

/-- Model of `sort_values("date_key")`: sort the deduplicated
`(date_key, start_time)` pairs ascending by key. -/
def sortPairsByKey (l : List (Nat × DateTime)) : List (Nat × DateTime) :=
  l.foldl (fun acc p => insByKey p acc) []

/-- English weekday name of a calendar date, as `strftime("%A")`
(day number `0`, i.e. `0001-01-01`, was a Monday). -/
def weekdayName (y m d : Nat) : String :=
  ["Monday", "Tuesday", "Wednesday", "Thursday", "Friday", "Saturday",
    "Sunday"].getD (daysFromCivil y m d % 7) ""

/-- Left-pad a numeral to two digits. -/
def pad2 (n : Nat) : String :=
  if n < 10 then "0" ++ toString n else toString n

/-- Left-pad a numeral to four digits. -/
def pad4 (n : Nat) : String :=
  if n < 10 then "000" ++ toString n
  else if n < 100 then "00" ++ toString n
  else if n < 1000 then "0" ++ toString n
  else toString n

/-- Model of `date.isoformat()`: the `YYYY-MM-DD` text of a calendar date. -/
def isoDate (y m d : Nat) : String :=
  pad4 y ++ "-" ++ pad2 m ++ "-" ++ pad2 d

/-- The station dimension rows `populate_dimensions` attempts to insert:
one per distinct `station_id` of the records, with the synthesized
display fields `"Station {id}"` / `"Location {id}"`. -/
def stationRowsOf (recs : List TransformedRecord) : List DimStationRow :=
  (uniqueFirst (recs.map (·.station_id))).map fun s =>
    ⟨s, "Station " ++ toString s, "Location " ++ toString s⟩

/-- The time dimension rows `populate_dimensions` attempts to insert: one
per deduplicated `(date_key, start_time)` pair, sorted by `date_key`,
with the calendar fields derived from `start_time.date()`. -/
def timeRowsOf (recs : List TransformedRecord) : List DimTimeRow :=
  (sortPairsByKey (uniqueFirst (recs.map fun r => (r.date_key, r.start_time)))).map
    fun p =>
      ⟨p.1, isoDate p.2.year p.2.month p.2.day,
        weekdayName p.2.year p.2.month p.2.day, p.2.month, p.2.year⟩

/-- Function `populate_dimensions`: `INSERT OR IGNORE` each distinct station and
each distinct date key into the dimension tables. -/
def populate_dimensions (db : DB) (recs : List TransformedRecord) : DB :=
  { db with
    dimStation := (stationRowsOf recs).foldl (insIgnore DimStationRow.station_id) db.dimStation
    dimTime := (timeRowsOf recs).foldl (insIgnore DimTimeRow.time_id) db.dimTime }

/-- The fact row written for a transformed record (`time_id` is the
record's `date_key`). -/
def toFactRow (r : TransformedRecord) : FactRow :=
  ⟨r.session_id, r.station_id, r.date_key, r.energy_kwh, r.duration_hours, r.success⟩

/-- Function `populate_fact`: `INSERT OR REPLACE` one fact row per record, keyed
by `session_id`.  The dimension tables are never consulted. -/
def populate_fact (db : DB) (recs : List TransformedRecord) : DB :=
  { db with fact := (recs.map toFactRow).foldl (insReplace FactRow.session_id) db.fact }

/-! ### Aggregator -/

/-- Insert a value into a strictly-ascending list, keeping it sorted and
duplicate-free. -/
def insOrd [LinearOrder α] (a : α) : List α → List α
  | [] => [a]
  | b :: l => if a < b then a :: b :: l else if b < a then b :: insOrd a l else b :: l

/-- The distinct values of a list in ascending order: the key list a SQL
`GROUP BY k ... ORDER BY k` produces. -/
def sortDedup [LinearOrder α] (l : List α) : List α :=
  l.foldr insOrd []

/-- One output row of the per-station KPI queries (`compute_kpis` in the
pipeline, `load_kpis` in the dashboard). -/
structure KpiRow where
  station_id : Nat
  total_sessions : Nat
  success_rate : ℚ
  avg_energy_kwh : ℚ
  avg_duration_hours : ℚ
deriving DecidableEq, Repr

/-- Aggregate `SUM(success)` over a group: the integer sum of the 0/1 success
column. -/
def sumSuccess (g : List FactRow) : Nat :=
  (g.map (·.success)).sum

/-- The aggregate list of `compute_kpis` applied to one station's group
`g`: `COUNT(*)`, `SUM(success) * 1.0 / COUNT(*)`, `AVG(energy_kwh)`,
`AVG(duration_hours)`. -/
def kpiAgg (g : List FactRow) (s : Nat) : KpiRow :=
  { station_id := s
    total_sessions := g.length
    success_rate := (sumSuccess g : ℚ) / (g.length : ℚ)
    avg_energy_kwh := (g.map (·.energy_kwh)).sum / (g.length : ℚ)
    avg_duration_hours := (g.map (·.duration_hours)).sum / (g.length : ℚ) }

/-- Function `compute_kpis`: `SELECT station_id, COUNT(*), SUM(success)*1.0/COUNT(*),
AVG(energy_kwh), AVG(duration_hours) FROM fact_charging GROUP BY
station_id ORDER BY station_id`. -/
def compute_kpis (facts : List FactRow) : List KpiRow :=
  (sortDedup (facts.map (·.station_id))).map fun s =>
    kpiAgg (facts.filter (fun f => f.station_id == s)) s

/-- One output row of the daily time-series query: the `dim_time.date`
text and the two averages. -/
structure DailyPoint where
  date : String
  avg_energy : ℚ
  avg_duration : ℚ
deriving DecidableEq, Repr

/-- The inner join `fact_charging f JOIN dim_time t ON f.time_id =
t.time_id`, row pair by row pair. -/
def timeJoin (db : DB) : List (DimTimeRow × FactRow) :=
  db.fact.flatMap fun f =>
    (db.dimTime.filter (fun t => t.time_id == f.time_id)).map fun t => (t, f)

/-- The aggregate list of `compute_time_series` applied to one date's
group of joined fact rows: `AVG(f.energy_kwh)`, `AVG(f.duration_hours)`.
`compute_time_series` joins the fact table to `dim_time`, then runs
`GROUP BY t.date ORDER BY t.date` (text ascending). -/
def dailyAgg (g : List FactRow) (d : String) : DailyPoint :=
  { date := d
    avg_energy := (g.map (·.energy_kwh)).sum / (g.length : ℚ)
    avg_duration := (g.map (·.duration_hours)).sum / (g.length : ℚ) }

/-- Function `compute_time_series`: group the joined rows by `t.date` and average
over each group. -/
def compute_time_series (db : DB) : List DailyPoint :=
  let joined := timeJoin db
  (sortDedup (joined.map (·.1.date))).map fun d =>
    dailyAgg ((joined.filter (fun p => p.1.date == d)).map (·.2)) d

/-- The inner join `fact_charging f JOIN dim_station s ON f.station_id =
s.station_id` of the dashboard's KPI query, keeping the joined
`s.station_id` with each fact row. -/
def stationJoin (db : DB) : List (Nat × FactRow) :=
  db.fact.flatMap fun f =>
    (db.dimStation.filter (fun s => s.station_id == f.station_id)).map
      fun s => (s.station_id, f)

/-- The aggregate list of the dashboard's `load_kpis` on one station's
group of joined fact rows: `COUNT(f.session_id)` (the count of the
joined rows, since `session_id` is never NULL),
`SUM(f.success) * 1.0 / COUNT(f.session_id)`, `AVG(f.energy_kwh)`,
`AVG(f.duration_hours)`. -/
def loadAgg (g : List FactRow) (s : Nat) : KpiRow :=
  { station_id := s
    total_sessions := g.length
    success_rate := (sumSuccess g : ℚ) / (g.length : ℚ)
    avg_energy_kwh := (g.map (·.energy_kwh)).sum / (g.length : ℚ)
    avg_duration_hours := (g.map (·.duration_hours)).sum / (g.length : ℚ) }

/-- Function `load_kpis` (dashboard): like `compute_kpis` but computed over the
inner join with `dim_station`, grouped and ordered by `s.station_id`. -/
def load_kpis (db : DB) : List KpiRow :=
  let joined := stationJoin db
  (sortDedup (joined.map (·.1))).map fun s =>
    loadAgg ((joined.filter (fun p => p.1 == s)).map (·.2)) s

/-! ### Generator (`generate_synthetic_data`)

The source drives generation off Python's global `random` module after
`random.seed(seed)`: the seeded state is a deterministic pseudorandom
generator threaded implicitly through the draws.  Following the spec's
own modelling note (§9, explicitly-threaded generator instance), the
embedding takes the generator as an explicit state machine `RandomLib`
and threads its state through the draws in the exact order the source
makes them; a run is then a pure function of the seed. -/

/-- The interface of the seeded `random` module: a state type `σ`, the
seeding function, and the three draw methods the generator uses
(`randint` with inclusive bounds, `uniform`, `random`). -/
structure RandomLib (σ : Type) where
  seedState : Int → σ
  randint : σ → Nat → Nat → Nat × σ
  uniform : σ → ℚ → ℚ → ℚ × σ
  random : σ → ℚ × σ

/-- Model of `round(x, 2)`: round to two decimal places, ties to even (Python's
banker's rounding). -/
def round2 (x : ℚ) : ℚ :=
  let y := x * 100
  let f : Int := ⌊y⌋
  let frac := y - (f : ℚ)
  let n : Int :=
    if frac < 1/2 then f
    else if 1/2 < frac then f + 1
    else if f % 2 = 0 then f else f + 1
  (n : ℚ) / 100

/-- Decimal rendering of a nonnegative numerator-over-100 energy value,
as Python prints the rounded float (`10.0`, `7.5`, `7.53`). -/
def renderCentsNat (n : Nat) : String :=
  let whole := n / 100
  let frac := n % 100
  if frac == 0 then toString whole ++ ".0"
  else if frac % 10 == 0 then toString whole ++ "." ++ toString (frac / 10)
  else toString whole ++ "." ++ pad2 frac

/-- Decimal rendering of the two-decimal energy value. -/
def renderEnergy (q : ℚ) : String :=
  let n : Int := ⌊q * 100⌋
  if n < 0 then "-" ++ renderCentsNat n.natAbs else renderCentsNat n.natAbs

/-- Model of `isoformat(sep="T", timespec="minutes")` of a timestamp. -/
def isoMinutes (t : DateTime) : String :=
  isoDate t.year t.month t.day ++ "T" ++ pad2 t.hour ++ ":" ++ pad2 t.minute

/-- Model of `datetime + timedelta(minutes := delta)`, via day-number
arithmetic. -/
def addMinutes (t : DateTime) (delta : Nat) : DateTime :=
  let total := daysFromCivil t.year t.month t.day * 1440 + t.hour * 60 + t.minute + delta
  let c := civilFromDays (total / 1440)
  ⟨c.1, c.2.1, c.2.2, total % 1440 / 60, total % 60⟩

/-- The epoch `datetime(2025, 1, 1)`, the fixed epoch of the 30-day window. -/
def startDate : DateTime := ⟨2025, 1, 1, 0, 0⟩

/-- One CSV data row as `csv.writer.writerow` emits it (comma separated,
CRLF terminated). -/
def csvLine (fields : List String) : String :=
  String.intercalate "," fields ++ "\r\n"

/-- The header row of the dataset file. -/
def headerLine : String :=
  csvLine ["session_id", "station_id", "start_time", "end_time", "energy_kwh", "success"]

/-- One loop iteration of `generate_synthetic_data`: the seven draws in
source order — station, start-day, start-hour, start-minute, duration,
energy-intensity, success — producing the session's CSV line and the
advanced generator state. -/
def sessionLine (R : RandomLib σ) (nStations : Nat) (sessionId : Nat) (s : σ) :
    String × σ :=
  let t1 := R.randint s 1 nStations
  let t2 := R.randint t1.2 0 29
  let t3 := R.randint t2.2 0 23
  let t4 := R.randint t3.2 0 59
  let startDt := addMinutes startDate (t2.1 * 1440 + t3.1 * 60 + t4.1)
  let t5 := R.randint t4.2 15 (4 * 60)
  let endDt := addMinutes startDt t5.1
  let t6 := R.uniform t5.2 (1/2) (4/5)
  let energy := round2 (t6.1 * ((t5.1 : ℚ) / 60) * 10)
  let t7 := R.random t6.2
  let success : Nat := if t7.1 < 9/10 then 1 else 0
  (csvLine [toString sessionId, toString t1.1, isoMinutes startDt, isoMinutes endDt,
      renderEnergy energy, toString success],
    t7.2)

/-- The generation loop: `count` further sessions starting at id `i`,
returning the CSV lines and the final generator state. -/
def genRows (R : RandomLib σ) (nStations : Nat) :
    Nat → Nat → σ → List String × σ
  | 0, _, s => ([], s)
  | count + 1, i, s =>
    let line := sessionLine R nStations i s
    let rest := genRows R nStations count (i + 1) line.2
    (line.1 :: rest.1, rest.2)

/-- Function `generate_synthetic_data(csv_path, n_sessions, n_stations, seed)`:
seed the generator, then write the header and one row per session id
`1..n_sessions`.  The result is the full byte content written to
`csv_path`; the path itself only names the output file. -/
def generate_synthetic_data (R : RandomLib σ) (csv_path : String)
    (n_sessions n_stations : Nat) (seed : Int) : String :=
  let _ := csv_path
  headerLine ++ String.join (genRows R n_stations n_sessions 1 (R.seedState seed)).1

/-- A record of one draw made against the `random` module: which method
was called, with which bounds. -/
inductive DrawCall where
  | randintCall (lo hi : Nat)
  | uniformCall (a b : ℚ)
  | randomCall
deriving DecidableEq, Repr

/-- Wrap a generator so that its state also accumulates the list of
draws made, in order. -/
def withTrace (R : RandomLib σ) : RandomLib (σ × List DrawCall) where
  seedState z := (R.seedState z, [])
  randint s lo hi :=
    let t := R.randint s.1 lo hi
    (t.1, (t.2, s.2 ++ [.randintCall lo hi]))
  uniform s a b :=
    let t := R.uniform s.1 a b
    (t.1, (t.2, s.2 ++ [.uniformCall a b]))
  random s :=
    let t := R.random s.1
    (t.1, (t.2, s.2 ++ [.randomCall]))

/-- The per-session draw sequence the source fixes: station
(`randint 1 k`), start-day (`randint 0 29`), start-hour (`randint 0 23`),
start-minute (`randint 0 59`), duration (`randint 15 240`),
energy-intensity (`uniform 0.5 0.8`), success (`random`). -/
def sessionDrawOrder (nStations : Nat) : List DrawCall :=
  [.randintCall 1 nStations, .randintCall 0 29, .randintCall 0 23,
    .randintCall 0 59, .randintCall 15 (4 * 60), .uniformCall (1/2) (4/5),
    .randomCall]

/-! ### Helper lemmas: sorted deduplication -/

section SortDedupLemmas

variable {α : Type*} [LinearOrder α]

theorem sortDedup_cons (b : α) (l : List α) :
    sortDedup (b :: l) = insOrd b (sortDedup l) := rfl

theorem mem_insOrd {x a : α} {l : List α} : x ∈ insOrd a l ↔ x = a ∨ x ∈ l := by
  induction l with
  | nil => simp [insOrd]
  | cons b l ih =>
    simp only [insOrd]
    by_cases h1 : a < b
    · simp [h1]
    · by_cases h2 : b < a
      · rw [if_neg h1, if_pos h2]
        simp only [List.mem_cons, ih]
        tauto
      · have hab : a = b := le_antisymm (not_lt.mp h2) (not_lt.mp h1)
        subst hab
        rw [if_neg h1, if_neg h2]
        simp only [List.mem_cons]
        tauto

theorem pairwise_insOrd {a : α} {l : List α} (h : l.Pairwise (· < ·)) :
    (insOrd a l).Pairwise (· < ·) := by
  induction l with
  | nil => simp [insOrd]
  | cons b l ih =>
    rcases List.pairwise_cons.mp h with ⟨hb, hl⟩
    simp only [insOrd]
    by_cases h1 : a < b
    · rw [if_pos h1]
      refine List.pairwise_cons.mpr ⟨?_, h⟩
      intro y hy
      rcases List.mem_cons.mp hy with rfl | hy
      · exact h1
      · exact lt_trans h1 (hb y hy)
    · by_cases h2 : b < a
      · rw [if_neg h1, if_pos h2]
        refine List.pairwise_cons.mpr ⟨?_, ih hl⟩
        intro y hy
        rcases mem_insOrd.mp hy with rfl | hy
        · exact h2
        · exact hb y hy
      · rw [if_neg h1, if_neg h2]
        exact h

theorem mem_sortDedup {x : α} {l : List α} : x ∈ sortDedup l ↔ x ∈ l := by
  induction l with
  | nil => simp [sortDedup]
  | cons b l ih =>
    rw [sortDedup_cons]
    simp only [mem_insOrd, List.mem_cons, ih]

theorem pairwise_sortDedup (l : List α) : (sortDedup l).Pairwise (· < ·) := by
  induction l with
  | nil => simp [sortDedup]
  | cons b l ih =>
    rw [sortDedup_cons]
    exact pairwise_insOrd ih

end SortDedupLemmas

/-! ### Helper lemmas: counting -/

theorem countP_filter_and (p q : α → Bool) (l : List α) :
    (l.filter q).countP p = l.countP (fun a => q a && p a) := by
  simp [List.countP_eq_length_filter, List.filter_filter, Bool.and_comm]

theorem sum_eq_countP_of_01 (f : α → Nat) (l : List α)
    (h : ∀ x ∈ l, f x = 0 ∨ f x = 1) :
    (l.map f).sum = l.countP (fun x => f x == 1) := by
  induction l with
  | nil => simp
  | cons a l ih =>
    have hl : ∀ x ∈ l, f x = 0 ∨ f x = 1 := fun x hx => h x (by simp [hx])
    rcases h a (by simp) with h0 | h1
    · simp [List.countP_cons, h0, ih hl]
    · simp only [List.map_cons, List.sum_cons, List.countP_cons, h1, ih hl]
      simp [Nat.add_comm]

/-! ### Helper lemmas: aggregate row projections -/

@[simp] theorem kpiAgg_station_id (g : List FactRow) (s : Nat) :
    (kpiAgg g s).station_id = s := rfl

@[simp] theorem kpiAgg_total_sessions (g : List FactRow) (s : Nat) :
    (kpiAgg g s).total_sessions = g.length := rfl

@[simp] theorem kpiAgg_success_rate (g : List FactRow) (s : Nat) :
    (kpiAgg g s).success_rate = (sumSuccess g : ℚ) / (g.length : ℚ) := rfl

@[simp] theorem kpiAgg_avg_energy_kwh (g : List FactRow) (s : Nat) :
    (kpiAgg g s).avg_energy_kwh = (g.map (·.energy_kwh)).sum / (g.length : ℚ) := rfl

@[simp] theorem kpiAgg_avg_duration_hours (g : List FactRow) (s : Nat) :
    (kpiAgg g s).avg_duration_hours = (g.map (·.duration_hours)).sum / (g.length : ℚ) := rfl

theorem loadAgg_eq_kpiAgg (g : List FactRow) (s : Nat) : loadAgg g s = kpiAgg g s := rfl

/-! ### C1: per-station KPIs -/

/-- The three facts of the spec's concrete KPI example: station 1 with
`(success, energy_kwh, duration_hours)` equal to `(1, 10, 1)`,
`(1, 20, 2)` and `(0, 0, 0.5)`. -/
def exampleFactsC1 : List FactRow :=
  [⟨1, 1, 20250101, 10, 1, 1⟩, ⟨2, 1, 20250101, 20, 2, 1⟩,
    ⟨3, 1, 20250101, 0, 1/2, 0⟩]

/-- Evaluation of `compute_kpis` on the spec's example facts. -/
theorem compute_kpis_example :
    compute_kpis exampleFactsC1 =
      [{ station_id := 1, total_sessions := 3, success_rate := 2/3,
         avg_energy_kwh := 10, avg_duration_hours := 7/6 }] := by
  show [kpiAgg (exampleFactsC1.filter (fun f => f.station_id == 1)) 1] = _
  norm_num [exampleFactsC1, kpiAgg, sumSuccess, List.filter]

/-- C1: `compute_kpis` groups all fact rows by station identifier; each
output row carries the group's total session count, success rate
`(count of success = 1) / total` lying in `[0, 1]`, mean `energy_kwh`
and mean `duration_hours`; rows are ordered strictly ascending by
station identifier, a station occurs in the output iff it has at least
one fact row; and on the spec's three-fact example for station 1 it
yields `total_sessions = 3`, `success_rate = 2/3` (within `0.001` of
`0.667`), `avg_energy_kwh = 10` and `avg_duration_hours = 7/6` (within
`0.001` of `1.167`). -/
theorem compute_kpis_spec (facts : List FactRow)
    (hs : ∀ f ∈ facts, f.success = 0 ∨ f.success = 1) :
    (compute_kpis facts).Pairwise (fun a b => a.station_id < b.station_id) ∧
    (∀ s : Nat, (∃ row ∈ compute_kpis facts, row.station_id = s) ↔
      ∃ f ∈ facts, f.station_id = s) ∧
    (∀ row ∈ compute_kpis facts,
      0 < row.total_sessions ∧
      row.total_sessions = facts.countP (fun f => f.station_id == row.station_id) ∧
      row.success_rate =
        (facts.countP (fun f => f.station_id == row.station_id && f.success == 1) : ℚ) /
          (facts.countP (fun f => f.station_id == row.station_id) : ℚ) ∧
      0 ≤ row.success_rate ∧ row.success_rate ≤ 1 ∧
      row.avg_energy_kwh =
        ((facts.filter (fun f => f.station_id == row.station_id)).map (·.energy_kwh)).sum /
          (facts.countP (fun f => f.station_id == row.station_id) : ℚ) ∧
      row.avg_duration_hours =
        ((facts.filter (fun f => f.station_id == row.station_id)).map (·.duration_hours)).sum /
          (facts.countP (fun f => f.station_id == row.station_id) : ℚ)) ∧
    compute_kpis exampleFactsC1 =
      [{ station_id := 1, total_sessions := 3, success_rate := 2/3,
         avg_energy_kwh := 10, avg_duration_hours := 7/6 }] ∧
    |(2 : ℚ)/3 - 667/1000| ≤ 1/1000 ∧ |(7 : ℚ)/6 - 1167/1000| ≤ 1/1000 := by
  refine ⟨?_, ?_, ?_, compute_kpis_example, by norm_num [abs_le], by norm_num [abs_le]⟩
  · have h1 : (sortDedup (facts.map (·.station_id))).Pairwise (· < ·) :=
      pairwise_sortDedup _
    exact List.pairwise_map.mpr (h1.imp (fun h => h))
  · intro s
    constructor
    · rintro ⟨row, hrow, rfl⟩
      simp only [compute_kpis] at hrow
      rcases List.mem_map.mp hrow with ⟨k, hk, rfl⟩
      rcases List.mem_map.mp (mem_sortDedup.mp hk) with ⟨f, hf, hfk⟩
      exact ⟨f, hf, by simpa using hfk⟩
    · rintro ⟨f, hf, rfl⟩
      exact ⟨kpiAgg (facts.filter (fun x => x.station_id == f.station_id)) f.station_id,
        List.mem_map_of_mem _ (mem_sortDedup.mpr (List.mem_map_of_mem _ hf)), rfl⟩
  · intro row hrow
    simp only [compute_kpis] at hrow
    rcases List.mem_map.mp hrow with ⟨k, hk, rfl⟩
    rcases List.mem_map.mp (mem_sortDedup.mp hk) with ⟨f0, hf0, hf0k⟩
    simp only [kpiAgg_station_id, kpiAgg_total_sessions, kpiAgg_success_rate,
      kpiAgg_avg_energy_kwh, kpiAgg_avg_duration_hours]
    have hlen : (facts.filter (fun f => f.station_id == k)).length =
        facts.countP (fun f => f.station_id == k) :=
      (List.countP_eq_length_filter _ _).symm
    have hf0G : f0 ∈ facts.filter (fun f => f.station_id == k) :=
      List.mem_filter.mpr ⟨hf0, by simp [hf0k]⟩
    have hpos : 0 < (facts.filter (fun f => f.station_id == k)).length :=
      List.length_pos.mpr (List.ne_nil_of_mem hf0G)
    have hsum : sumSuccess (facts.filter (fun f => f.station_id == k)) =
        facts.countP (fun f => f.station_id == k && f.success == 1) := by
      rw [sumSuccess, sum_eq_countP_of_01 _ _ (fun x hx => hs x (List.mem_filter.mp hx).1)]
      exact countP_filter_and _ _ _
    refine ⟨hlen ▸ hpos, hlen, ?_, ?_, ?_, by rw [hlen], by rw [hlen]⟩
    · rw [hsum, hlen]
    · exact div_nonneg (by positivity) (by positivity)
    · rw [div_le_one (by exact_mod_cast hpos)]
      have hle : sumSuccess (facts.filter (fun f => f.station_id == k)) ≤
          (facts.filter (fun f => f.station_id == k)).length := by
        rw [sumSuccess, sum_eq_countP_of_01 _ _ (fun x hx => hs x (List.mem_filter.mp hx).1)]
        exact List.countP_le_length _
      exact_mod_cast hle

/-- Witness for C1: the hypothesis holds on the spec's example facts and
the theorem then evaluates `compute_kpis` on them. -/
theorem compute_kpis_spec_witness :
    (∀ f ∈ exampleFactsC1, f.success = 0 ∨ f.success = 1) ∧
    compute_kpis exampleFactsC1 =
      [{ station_id := 1, total_sessions := 3, success_rate := 2/3,
         avg_energy_kwh := 10, avg_duration_hours := 7/6 }] :=
  ⟨by decide, (compute_kpis_spec exampleFactsC1 (by decide)).2.2.2.1⟩

/-! ### Helper lemmas: shape of a successful transform -/

theorem process_data_ok_shape :
    ∀ {rows : List RawRow} {recs : List TransformedRecord},
      process_data rows = .ok recs →
      ∀ rec ∈ recs, ∃ (r : RawRow) (s e : DateTime), r ∈ rows ∧
        parseTimestamp r.start_time = some s ∧ parseTimestamp r.end_time = some e ∧
        rec = transformRow r s e := by
  intro rows
  induction rows with
  | nil =>
    intro recs h rec hrec
    simp only [process_data] at h
    cases h
    simp at hrec
  | cons r rest ih =>
    intro recs h rec hrec
    simp only [process_data] at h
    split at h
    case h_1 s e hs he =>
      split at h
      case h_1 recs' hrest =>
        cases h
        rcases List.mem_cons.mp hrec with rfl | hmem
        · exact ⟨r, s, e, List.mem_cons_self r rest, hs, he, rfl⟩
        · rcases ih hrest rec hmem with ⟨r', s', e', hr', h1, h2, h3⟩
          exact ⟨r', s', e', List.mem_cons_of_mem _ hr', h1, h2, h3⟩
      case h_2 => cases h
    case h_2 => cases h
    case h_3 => cases h

theorem process_data_ok_length :
    ∀ {rows : List RawRow} {recs : List TransformedRecord},
      process_data rows = .ok recs → recs.length = rows.length := by
  intro rows
  induction rows with
  | nil =>
    intro recs h
    simp only [process_data] at h
    cases h
    rfl
  | cons r rest ih =>
    intro recs h
    simp only [process_data] at h
    split at h
    case h_1 =>
      split at h
      case h_1 recs' hrest =>
        cases h
        simp [ih hrest]
      case h_2 => cases h
    case h_2 => cases h
    case h_3 => cases h

/-! ### C3: transform failure conditions -/

/-- A raw row whose `end_time` is strictly before its `start_time`, both
being valid timestamps. -/
def rowEndBeforeStartC3 : RawRow :=
  ⟨1, 1, "2025-01-02T10:00", "2025-01-01T10:00", 5, 1⟩

/-- C3 counterexample: on a row whose end timestamp is a day before its
start timestamp, `process_data` does **not** fail — it returns the row,
carrying `duration_hours = -24`.  This refutes the claim that the
transform fails with a `ParseError` whenever `end < start`. -/
theorem process_data_end_before_start_counterexample :
    DateTime.toSeconds ⟨2025, 1, 1, 10, 0⟩ < DateTime.toSeconds ⟨2025, 1, 2, 10, 0⟩ ∧
    process_data [rowEndBeforeStartC3] =
      .ok [transformRow rowEndBeforeStartC3 ⟨2025, 1, 2, 10, 0⟩ ⟨2025, 1, 1, 10, 0⟩] ∧
    (transformRow rowEndBeforeStartC3 ⟨2025, 1, 2, 10, 0⟩
        ⟨2025, 1, 1, 10, 0⟩).duration_hours = -24 := by
  have hs : parseTimestamp "2025-01-02T10:00" = some ⟨2025, 1, 2, 10, 0⟩ := by decide
  have he : parseTimestamp "2025-01-01T10:00" = some ⟨2025, 1, 1, 10, 0⟩ := by decide
  refine ⟨by decide, ?_, ?_⟩
  · simp [process_data, rowEndBeforeStartC3, hs, he]
  · have hd : ((DateTime.toSeconds ⟨2025, 1, 1, 10, 0⟩ : Int) -
        (DateTime.toSeconds ⟨2025, 1, 2, 10, 0⟩ : Int)) = -86400 := by decide
    simp only [transformRow, hd]
    norm_num

/-- C3 as amended: `process_data` fails (aborting the whole batch, with
no surviving records) exactly when some row's start or end is not a
valid timestamp; an end timestamp earlier than the start timestamp is
*not* a failure — the row is transformed, with a negative
`duration_hours` (see the counterexample). -/
theorem process_data_error_iff (rows : List RawRow) :
    ((∃ err, process_data rows = .error err) ↔
      ∃ r ∈ rows, parseTimestamp r.start_time = none ∨
        parseTimestamp r.end_time = none) ∧
    (∀ recs, process_data rows = .ok recs → recs.length = rows.length) := by
  refine ⟨?_, fun recs h => process_data_ok_length h⟩
  induction rows with
  | nil => simp [process_data]
  | cons r rest ih =>
    simp only [process_data]
    cases hs : parseTimestamp r.start_time with
    | none => simp [hs]
    | some s =>
      cases he : parseTimestamp r.end_time with
      | none => simp [he]
      | some e =>
        cases hrest : process_data rest with
        | ok recs' =>
          rw [hrest] at ih
          simp only [List.mem_cons]
          constructor
          · rintro ⟨err, herr⟩
            cases herr
          · rintro ⟨r', hr', hbad⟩
            rcases hr' with rfl | hr'
            · rcases hbad with hbad | hbad
              · rw [hs] at hbad; cases hbad
              · rw [he] at hbad; cases hbad
            · rcases ih.mpr ⟨r', hr', hbad⟩ with ⟨err, herr⟩
              cases herr
        | error err =>
          rw [hrest] at ih
          simp only [List.mem_cons]
          constructor
          · intro _
            rcases ih.mp ⟨err, rfl⟩ with ⟨r'', hr'', hbad''⟩
            exact ⟨r'', Or.inr hr'', hbad''⟩
          · intro _
            exact ⟨err, rfl⟩

/-- A raw row whose start timestamp is not parsable. -/
def rowBadStartC3 : RawRow :=
  ⟨1, 1, "not-a-timestamp", "2025-01-01T10:00", 5, 1⟩

/-- Witness for C3 (amended): on a batch containing a row with an
unparsable start timestamp, the transform does fail. -/
theorem process_data_error_iff_witness :
    ∃ err, process_data [rowBadStartC3] = .error err :=
  (process_data_error_iff [rowBadStartC3]).1.mpr
    ⟨rowBadStartC3, by decide, Or.inl (by decide)⟩

/-! ### C4: duration correctness -/

/-- The spec's day-boundary example row: start `2025-01-01T23:50`, end
`2025-01-02T00:20`. -/
def rowDayBoundaryC4 : RawRow :=
  ⟨1, 1, "2025-01-01T23:50", "2025-01-02T00:20", 5, 1⟩

/-- C4: for every record produced by a successful `process_data`,
`duration_hours × 3600` is exactly the second difference between the end
and start timestamps; in particular the day-boundary example row yields
`duration_hours = 1/2`. -/
theorem duration_hours_spec (rows : List RawRow) (recs : List TransformedRecord)
    (h : process_data rows = .ok recs) :
    (∀ rec ∈ recs, rec.duration_hours * 3600 =
      (rec.end_time.toSeconds : ℚ) - (rec.start_time.toSeconds : ℚ)) ∧
    process_data [rowDayBoundaryC4] =
      .ok [transformRow rowDayBoundaryC4 ⟨2025, 1, 1, 23, 50⟩ ⟨2025, 1, 2, 0, 20⟩] ∧
    (transformRow rowDayBoundaryC4 ⟨2025, 1, 1, 23, 50⟩
        ⟨2025, 1, 2, 0, 20⟩).duration_hours = 1/2 := by
  have hs : parseTimestamp "2025-01-01T23:50" = some ⟨2025, 1, 1, 23, 50⟩ := by decide
  have he : parseTimestamp "2025-01-02T00:20" = some ⟨2025, 1, 2, 0, 20⟩ := by decide
  refine ⟨?_, by simp [process_data, rowDayBoundaryC4, hs, he], ?_⟩
  · intro rec hrec
    rcases process_data_ok_shape h rec hrec with ⟨r, s, e, _, _, _, rfl⟩
    simp only [transformRow]
    rw [div_mul_cancel₀ _ (by norm_num : (3600 : ℚ) ≠ 0)]
    push_cast
    ring
  · have hd : ((DateTime.toSeconds ⟨2025, 1, 2, 0, 20⟩ : Int) -
        (DateTime.toSeconds ⟨2025, 1, 1, 23, 50⟩ : Int)) = 1800 := by decide
    simp only [transformRow, hd]
    norm_num

/-- Witness for C4: the hypothesis is discharged by running the
transform on the day-boundary row, and the duration relation holds for
the produced record. -/
theorem duration_hours_spec_witness :
    (transformRow rowDayBoundaryC4 ⟨2025, 1, 1, 23, 50⟩
        ⟨2025, 1, 2, 0, 20⟩).duration_hours * 3600 =
      ((transformRow rowDayBoundaryC4 ⟨2025, 1, 1, 23, 50⟩
        ⟨2025, 1, 2, 0, 20⟩).end_time.toSeconds : ℚ) -
      ((transformRow rowDayBoundaryC4 ⟨2025, 1, 1, 23, 50⟩
        ⟨2025, 1, 2, 0, 20⟩).start_time.toSeconds : ℚ) := by
  have hs : parseTimestamp "2025-01-01T23:50" = some ⟨2025, 1, 1, 23, 50⟩ := by decide
  have he : parseTimestamp "2025-01-02T00:20" = some ⟨2025, 1, 2, 0, 20⟩ := by decide
  have hrun : process_data [rowDayBoundaryC4] =
      .ok [transformRow rowDayBoundaryC4 ⟨2025, 1, 1, 23, 50⟩ ⟨2025, 1, 2, 0, 20⟩] := by
    simp [process_data, rowDayBoundaryC4, hs, he]
  exact (duration_hours_spec _ _ hrun).1 _ (by simp)

/-! ### C5: date-key correctness -/

/-- The spec's date-key example row: start `2025-03-07T08:15`. -/
def rowDateKeyA : RawRow :=
  ⟨1, 1, "2025-03-07T08:15", "2025-03-07T09:00", 5, 1⟩

/-- A second row starting the same calendar day at a different
time-of-day, with an end timestamp two days later. -/
def rowDateKeyB : RawRow :=
  ⟨2, 1, "2025-03-07T23:59", "2025-03-09T10:00", 5, 1⟩

/-- C5: every transformed record's `date_key` is the integer `YYYYMMDD`
encoding of the start timestamp's calendar date — so it is independent
of the start time-of-day and of the end timestamp entirely — and the
two concrete rows starting on `2025-03-07` (at different times of day,
with different end timestamps) both get `date_key = 20250307`. -/
theorem date_key_spec (rows : List RawRow) (recs : List TransformedRecord)
    (h : process_data rows = .ok recs) :
    (∀ rec ∈ recs, rec.date_key =
      rec.start_time.year * 10000 + rec.start_time.month * 100 + rec.start_time.day) ∧
    (∀ rec1 ∈ recs, ∀ rec2 ∈ recs,
      rec1.start_time.year = rec2.start_time.year →
      rec1.start_time.month = rec2.start_time.month →
      rec1.start_time.day = rec2.start_time.day →
      rec1.date_key = rec2.date_key) ∧
    process_data [rowDateKeyA, rowDateKeyB] =
      .ok [transformRow rowDateKeyA ⟨2025, 3, 7, 8, 15⟩ ⟨2025, 3, 7, 9, 0⟩,
        transformRow rowDateKeyB ⟨2025, 3, 7, 23, 59⟩ ⟨2025, 3, 9, 10, 0⟩] ∧
    (transformRow rowDateKeyA ⟨2025, 3, 7, 8, 15⟩ ⟨2025, 3, 7, 9, 0⟩).date_key =
      20250307 ∧
    (transformRow rowDateKeyB ⟨2025, 3, 7, 23, 59⟩ ⟨2025, 3, 9, 10, 0⟩).date_key =
      20250307 := by
  have key : ∀ rec ∈ recs, rec.date_key =
      rec.start_time.year * 10000 + rec.start_time.month * 100 + rec.start_time.day := by
    intro rec hrec
    rcases process_data_ok_shape h rec hrec with ⟨r, s, e, _, _, _, rfl⟩
    rfl
  refine ⟨key, ?_, ?_, by decide, by decide⟩
  · intro rec1 h1 rec2 h2 hy hm hd
    rw [key rec1 h1, key rec2 h2, hy, hm, hd]
  · have hsA : parseTimestamp "2025-03-07T08:15" = some ⟨2025, 3, 7, 8, 15⟩ := by decide
    have heA : parseTimestamp "2025-03-07T09:00" = some ⟨2025, 3, 7, 9, 0⟩ := by decide
    have hsB : parseTimestamp "2025-03-07T23:59" = some ⟨2025, 3, 7, 23, 59⟩ := by decide
    have heB : parseTimestamp "2025-03-09T10:00" = some ⟨2025, 3, 9, 10, 0⟩ := by decide
    simp [process_data, rowDateKeyA, rowDateKeyB, hsA, heA, hsB, heB]

/-- Witness for C5: the transform hypothesis is discharged on the two
concrete rows, and the produced records' `date_key` equals the `YYYYMMDD`
encoding of their start dates. -/
theorem date_key_spec_witness :
    (transformRow rowDateKeyA ⟨2025, 3, 7, 8, 15⟩ ⟨2025, 3, 7, 9, 0⟩).date_key =
      (transformRow rowDateKeyA ⟨2025, 3, 7, 8, 15⟩
        ⟨2025, 3, 7, 9, 0⟩).start_time.year * 10000 +
      (transformRow rowDateKeyA ⟨2025, 3, 7, 8, 15⟩
        ⟨2025, 3, 7, 9, 0⟩).start_time.month * 100 +
      (transformRow rowDateKeyA ⟨2025, 3, 7, 8, 15⟩
        ⟨2025, 3, 7, 9, 0⟩).start_time.day := by
  have hsA : parseTimestamp "2025-03-07T08:15" = some ⟨2025, 3, 7, 8, 15⟩ := by decide
  have heA : parseTimestamp "2025-03-07T09:00" = some ⟨2025, 3, 7, 9, 0⟩ := by decide
  have hsB : parseTimestamp "2025-03-07T23:59" = some ⟨2025, 3, 7, 23, 59⟩ := by decide
  have heB : parseTimestamp "2025-03-09T10:00" = some ⟨2025, 3, 9, 10, 0⟩ := by decide
  have hrun : process_data [rowDateKeyA, rowDateKeyB] =
      .ok [transformRow rowDateKeyA ⟨2025, 3, 7, 8, 15⟩ ⟨2025, 3, 7, 9, 0⟩,
        transformRow rowDateKeyB ⟨2025, 3, 7, 23, 59⟩ ⟨2025, 3, 9, 10, 0⟩] := by
    simp [process_data, rowDateKeyA, rowDateKeyB, hsA, heA, hsB, heB]
  exact (date_key_spec _ _ hrun).1 _ (by simp)

/-! ### Helper lemmas: `INSERT OR IGNORE` folds -/

section InsIgnoreLemmas

variable {α : Type*} (key : α → Nat)

theorem mem_insIgnore {x row : α} {t : List α} (h : x ∈ t) :
    x ∈ insIgnore key t row := by
  unfold insIgnore
  split
  · exact h
  · exact List.mem_append_left _ h

theorem mem_foldl_insIgnore {x : α} {t rows : List α} (h : x ∈ t) :
    x ∈ rows.foldl (insIgnore key) t := by
  induction rows generalizing t with
  | nil => exact h
  | cons r rows ih => exact ih (mem_insIgnore key h)

theorem anyKey_insIgnore {k : Nat} {t : List α} {row : α}
    (h : t.any (fun r => key r == k) = true) :
    (insIgnore key t row).any (fun r => key r == k) = true := by
  unfold insIgnore
  split
  · exact h
  · simp [List.any_append, h]

theorem anyKey_self_insIgnore (t : List α) (row : α) :
    (insIgnore key t row).any (fun r => key r == key row) = true := by
  unfold insIgnore
  split
  case isTrue h => exact h
  case isFalse h => simp [List.any_append]

theorem anyKey_foldl_of_any {k : Nat} {t rows : List α}
    (h : t.any (fun r => key r == k) = true) :
    (rows.foldl (insIgnore key) t).any (fun r => key r == k) = true := by
  induction rows generalizing t with
  | nil => exact h
  | cons r rows ih => exact ih (anyKey_insIgnore key h)

theorem anyKey_foldl_insIgnore {t rows : List α} {row : α} (h : row ∈ rows) :
    (rows.foldl (insIgnore key) t).any (fun r => key r == key row) = true := by
  induction rows generalizing t with
  | nil => cases h
  | cons r rows ih =>
    rcases List.mem_cons.mp h with rfl | h
    · rw [List.foldl_cons]
      exact anyKey_foldl_of_any key (anyKey_self_insIgnore key t _)
    · rw [List.foldl_cons]
      exact ih h

theorem filter_insIgnore_of_any {k : Nat} {t : List α} {row : α}
    (h : t.any (fun r => key r == k) = true) :
    (insIgnore key t row).filter (fun r => key r == k) =
      t.filter (fun r => key r == k) := by
  unfold insIgnore
  split
  · rfl
  case isFalse hno =>
    rw [List.filter_append]
    cases hkr : (key row == k) with
    | true =>
      have hk : key row = k := by simpa using hkr
      rw [← hk] at h
      exact absurd h hno
    | false => simp [List.filter_singleton, hkr]

theorem filter_foldl_insIgnore {k : Nat} {t rows : List α}
    (h : t.any (fun r => key r == k) = true) :
    (rows.foldl (insIgnore key) t).filter (fun r => key r == k) =
      t.filter (fun r => key r == k) := by
  induction rows generalizing t with
  | nil => rfl
  | cons r rows ih =>
    rw [List.foldl_cons, ih (anyKey_insIgnore key h), filter_insIgnore_of_any key h]

theorem foldl_insIgnore_eq_self {t rows : List α}
    (h : ∀ r ∈ rows, t.any (fun x => key x == key r) = true) :
    rows.foldl (insIgnore key) t = t := by
  induction rows with
  | nil => rfl
  | cons r rows ih =>
    have h1 : insIgnore key t r = t := by
      unfold insIgnore
      rw [if_pos (h r (List.mem_cons_self r rows))]
    rw [List.foldl_cons, h1]
    exact ih (fun r' hr' => h r' (List.mem_cons_of_mem _ hr'))

theorem nodup_insIgnore {t : List α} {row : α} (h : (t.map key).Nodup) :
    ((insIgnore key t row).map key).Nodup := by
  unfold insIgnore
  split
  · exact h
  case isFalse hno =>
    rw [List.map_append]
    refine List.nodup_append.mpr ⟨h, by simp, ?_⟩
    intro a ha hb
    simp only [List.map_cons, List.map_nil, List.mem_singleton] at hb
    subst hb
    rcases List.mem_map.mp ha with ⟨r, hr, hkr⟩
    exact hno (List.any_eq_true.mpr ⟨r, hr, by simp [hkr]⟩)

theorem nodup_foldl_insIgnore {t rows : List α} (h : (t.map key).Nodup) :
    (((rows.foldl (insIgnore key) t)).map key).Nodup := by
  induction rows generalizing t with
  | nil => exact h
  | cons r rows ih => exact ih (nodup_insIgnore key h)

theorem countP_key_eq_count (l : List α) (k : Nat) :
    l.countP (fun r => key r == k) = (l.map key).count k := by
  induction l with
  | nil => rfl
  | cons r l ih =>
    simp [List.countP_cons, List.count_cons, ih]

theorem countP_key_eq_one {l : List α} {k : Nat}
    (hnd : (l.map key).Nodup) (h : l.any (fun r => key r == k) = true) :
    l.countP (fun r => key r == k) = 1 := by
  rcases List.any_eq_true.mp h with ⟨r, hr, hkr⟩
  have hk : key r = k := by simpa using hkr
  have h1 : 0 < (l.map key).count k :=
    List.count_pos_iff.mpr (hk ▸ List.mem_map_of_mem key hr)
  have h2 : (l.map key).count k ≤ 1 := List.nodup_iff_count_le_one.mp hnd k
  rw [countP_key_eq_count]
  omega

end InsIgnoreLemmas

/-! ### Helper lemmas: membership through dedup and sort -/

theorem mem_foldl_dedupAux {β : Type*} [DecidableEq β] {x : β} (l : List β) :
    ∀ acc : List β,
      (x ∈ l.foldl (fun acc y => if y ∈ acc then acc else acc ++ [y]) acc ↔
        x ∈ acc ∨ x ∈ l) := by
  induction l with
  | nil => intro acc; simp
  | cons y l ih =>
    intro acc
    rw [List.foldl_cons, ih]
    by_cases hy : y ∈ acc
    · rw [if_pos hy]
      simp only [List.mem_cons]
      constructor
      · rintro (h | h)
        · exact Or.inl h
        · exact Or.inr (Or.inr h)
      · rintro (h | h | h)
        · exact Or.inl h
        · exact Or.inl (h ▸ hy)
        · exact Or.inr h
    · rw [if_neg hy]
      simp only [List.mem_append, List.mem_singleton, List.mem_cons]
      tauto

theorem mem_uniqueFirst {β : Type*} [DecidableEq β] {x : β} {l : List β} :
    x ∈ uniqueFirst l ↔ x ∈ l := by
  rw [uniqueFirst, mem_foldl_dedupAux]
  simp

theorem mem_insByKey {x p : Nat × DateTime} {l : List (Nat × DateTime)} :
    x ∈ insByKey p l ↔ x = p ∨ x ∈ l := by
  induction l with
  | nil => simp [insByKey]
  | cons q l ih =>
    simp only [insByKey]
    split
    · simp [List.mem_cons]
    · simp only [List.mem_cons, ih]
      tauto

theorem mem_foldl_insByKey {x : Nat × DateTime} (l : List (Nat × DateTime)) :
    ∀ acc, (x ∈ l.foldl (fun acc p => insByKey p acc) acc ↔ x ∈ acc ∨ x ∈ l) := by
  induction l with
  | nil => intro acc; simp
  | cons p l ih =>
    intro acc
    rw [List.foldl_cons, ih]
    simp only [mem_insByKey, List.mem_cons]
    tauto

theorem mem_sortPairsByKey {x : Nat × DateTime} {l : List (Nat × DateTime)} :
    x ∈ sortPairsByKey l ↔ x ∈ l := by
  rw [sortPairsByKey, mem_foldl_insByKey]
  simp

/-! ### C6: idempotent dimension load -/

/-- C6: `populate_dimensions` is idempotent, leaves exactly one station
dimension row per distinct station identifier of the records and one
time dimension row per distinct date key (given the primary-key
invariant on the incoming store), never drops an existing dimension row,
and never overwrites the rows stored under an already-present key. -/
theorem populate_dimensions_spec (db : DB) (recs : List TransformedRecord)
    (hstation : (db.dimStation.map (·.station_id)).Nodup)
    (htime : (db.dimTime.map (·.time_id)).Nodup) :
    populate_dimensions (populate_dimensions db recs) recs =
      populate_dimensions db recs ∧
    (∀ s ∈ recs.map (·.station_id),
      (populate_dimensions db recs).dimStation.countP
        (fun r => r.station_id == s) = 1) ∧
    (∀ k ∈ recs.map (·.date_key),
      (populate_dimensions db recs).dimTime.countP
        (fun r => r.time_id == k) = 1) ∧
    (∀ row ∈ db.dimStation, row ∈ (populate_dimensions db recs).dimStation) ∧
    (∀ row ∈ db.dimTime, row ∈ (populate_dimensions db recs).dimTime) ∧
    (∀ k, db.dimStation.any (fun r => r.station_id == k) = true →
      (populate_dimensions db recs).dimStation.filter (fun r => r.station_id == k) =
        db.dimStation.filter (fun r => r.station_id == k)) ∧
    (∀ k, db.dimTime.any (fun r => r.time_id == k) = true →
      (populate_dimensions db recs).dimTime.filter (fun r => r.time_id == k) =
        db.dimTime.filter (fun r => r.time_id == k)) := by
  refine ⟨?_, ?_, ?_, ?_, ?_, ?_, ?_⟩
  · show populate_dimensions { db with
      dimStation := (stationRowsOf recs).foldl (insIgnore DimStationRow.station_id) db.dimStation
      dimTime := (timeRowsOf recs).foldl (insIgnore DimTimeRow.time_id) db.dimTime } recs = _
    unfold populate_dimensions
    rw [foldl_insIgnore_eq_self _ (fun r hr => anyKey_foldl_insIgnore _ hr),
      foldl_insIgnore_eq_self _ (fun r hr => anyKey_foldl_insIgnore _ hr)]
  · intro s hs
    rcases List.mem_map.mp hs with ⟨rec, hrec, hrecs⟩
    have hrowmem : (⟨s, "Station " ++ toString s, "Location " ++ toString s⟩ :
        DimStationRow) ∈ stationRowsOf recs :=
      List.mem_map_of_mem _ (mem_uniqueFirst.mpr (hrecs ▸ List.mem_map_of_mem _ hrec))
    exact countP_key_eq_one _ (nodup_foldl_insIgnore _ hstation)
      (anyKey_foldl_insIgnore _ hrowmem)
  · intro k hk
    rcases List.mem_map.mp hk with ⟨rec, hrec, hreck⟩
    have hpair : (k, rec.start_time) ∈
        sortPairsByKey (uniqueFirst (recs.map fun r => (r.date_key, r.start_time))) :=
      mem_sortPairsByKey.mpr (mem_uniqueFirst.mpr
        (hreck ▸ List.mem_map_of_mem _ hrec))
    have hrowmem : (⟨k, isoDate rec.start_time.year rec.start_time.month rec.start_time.day,
        weekdayName rec.start_time.year rec.start_time.month rec.start_time.day,
        rec.start_time.month, rec.start_time.year⟩ : DimTimeRow) ∈ timeRowsOf recs :=
      List.mem_map_of_mem _ hpair
    exact countP_key_eq_one _ (nodup_foldl_insIgnore _ htime)
      (anyKey_foldl_insIgnore _ hrowmem)
  · intro row hrow
    exact mem_foldl_insIgnore _ hrow
  · intro row hrow
    exact mem_foldl_insIgnore _ hrow
  · intro k hk
    exact filter_foldl_insIgnore _ hk
  · intro k hk
    exact filter_foldl_insIgnore _ hk

/-- A concrete transformed record for the loader witnesses. -/
def recW : TransformedRecord :=
  ⟨1, 1, ⟨2025, 1, 1, 8, 0⟩, ⟨2025, 1, 1, 9, 0⟩, 10, 1, 1, 20250101⟩

/-- Witness for C6: on a fresh store and a one-record batch the two
primary-key hypotheses hold and reloading the same batch is a no-op. -/
theorem populate_dimensions_spec_witness :
    populate_dimensions (populate_dimensions create_database [recW]) [recW] =
      populate_dimensions create_database [recW] :=
  (populate_dimensions_spec create_database [recW] (by decide) (by decide)).1

/-! ### Helper lemmas: `INSERT OR REPLACE` folds -/

section InsReplaceLemmas

variable {α : Type*} (key : α → Nat)

theorem filter_insReplace_self (t : List α) (row : α) :
    (insReplace key t row).filter (fun r => key r == key row) = [row] := by
  unfold insReplace
  rw [List.filter_append, List.filter_filter]
  have h1 : t.filter (fun r => (key r == key row) && !(key r == key row)) = [] := by
    rw [List.filter_eq_nil_iff]
    intro a _
    cases key a == key row <;> simp
  rw [h1]
  simp [List.filter_singleton]

theorem filter_insReplace_other {k : Nat} {t : List α} {row : α}
    (hne : (key row == k) = false) :
    (insReplace key t row).filter (fun r => key r == k) =
      t.filter (fun r => key r == k) := by
  unfold insReplace
  rw [List.filter_append, List.filter_filter]
  have h1 : t.filter (fun r => (key r == k) && !(key r == key row)) =
      t.filter (fun r => key r == k) := by
    refine List.filter_congr ?_
    intro r _
    cases hkr : (key r == k) with
    | false => rfl
    | true =>
      have : key r = k := by simpa using hkr
      subst this
      have : (key r == key row) = false := by
        rw [Bool.eq_false_iff]
        intro hcon
        have hkk : key r = key row := by simpa using hcon
        rw [← hkk] at hne
        simp at hne
      simp [this]
  rw [h1]
  simp [List.filter_singleton, hne]

theorem filter_foldl_insReplace_nil {k : Nat} {rows t : List α}
    (h : rows.filter (fun r => key r == k) = []) :
    (rows.foldl (insReplace key) t).filter (fun r => key r == k) =
      t.filter (fun r => key r == k) := by
  induction rows generalizing t with
  | nil => rfl
  | cons x rows ih =>
    have hall := List.filter_eq_nil_iff.mp h
    have hx : (key x == k) = false :=
      Bool.eq_false_iff.mpr (hall x (List.mem_cons_self x rows))
    have hrest : rows.filter (fun r => key r == k) = [] :=
      List.filter_eq_nil_iff.mpr (fun a ha => hall a (List.mem_cons_of_mem _ ha))
    rw [List.foldl_cons, ih hrest, filter_insReplace_other key hx]

theorem filter_foldl_insReplace_single {rows t : List α} {r : α}
    (h : rows.filter (fun x => key x == key r) = [r]) :
    (rows.foldl (insReplace key) t).filter (fun x => key x == key r) = [r] := by
  induction rows generalizing t with
  | nil => simp at h
  | cons x rows ih =>
    cases hx : (key x == key r) with
    | true =>
      rw [List.filter_cons, if_pos hx] at h
      have hx2 : x = r := (List.cons_eq_cons.mp h).1
      have hnil : rows.filter (fun y => key y == key r) = [] :=
        (List.cons_eq_cons.mp h).2
      subst hx2
      rw [List.foldl_cons, filter_foldl_insReplace_nil key hnil,
        filter_insReplace_self]
    | false =>
      rw [List.filter_cons, if_neg (by simp [hx])] at h
      rw [List.foldl_cons]
      exact ih h

end InsReplaceLemmas

/-! ### C7: fact upsert by session identifier -/

/-- C7: `populate_fact` upserts by `session_id`.  After loading any
batch `b1` and then a batch `b2` whose rows with session identifier
`r.session_id` are exactly `[r]`, the store holds exactly one fact row
for that session, and it is the full fact row written from `r` (every
field replaced, regardless of what `b1` or the prior store contents held
under that session identifier). -/
theorem populate_fact_upsert (db : DB) (b1 b2 : List TransformedRecord)
    (r : TransformedRecord)
    (h : b2.filter (fun x => x.session_id == r.session_id) = [r]) :
    (populate_fact (populate_fact db b1) b2).fact.filter
        (fun f => f.session_id == r.session_id) = [toFactRow r] ∧
    (populate_fact (populate_fact db b1) b2).fact.countP
        (fun f => f.session_id == r.session_id) = 1 := by
  have hmap : (b2.map toFactRow).filter
      (fun f => f.session_id == (toFactRow r).session_id) = [toFactRow r] := by
    rw [List.filter_map]
    have : (b2.filter ((fun f => f.session_id == (toFactRow r).session_id) ∘ toFactRow)) =
        b2.filter (fun x => x.session_id == r.session_id) :=
      List.filter_congr (fun x _ => rfl)
    rw [this, h]
    rfl
  have hfilter := filter_foldl_insReplace_single FactRow.session_id
    (t := (populate_fact db b1).fact) hmap
  refine ⟨hfilter, ?_⟩
  rw [List.countP_eq_length_filter]
  show ((populate_fact (populate_fact db b1) b2).fact.filter
    (fun f => f.session_id == (toFactRow r).session_id)).length = 1
  rw [show (populate_fact (populate_fact db b1) b2).fact =
    (b2.map toFactRow).foldl (insReplace FactRow.session_id)
      (populate_fact db b1).fact from rfl, hfilter]
  rfl

/-- The re-ingested record for the C7 witness: same session identifier
as `recW`, different energy value. -/
def recW2 : TransformedRecord :=
  ⟨1, 1, ⟨2025, 1, 1, 8, 0⟩, ⟨2025, 1, 1, 9, 0⟩, 20, 1, 1, 20250101⟩

/-- Witness for C7: loading `[recW]` then `[recW2]` (same session id,
different energy) leaves exactly the fact row written from `recW2`. -/
theorem populate_fact_upsert_witness :
    (populate_fact (populate_fact create_database [recW]) [recW2]).fact.filter
        (fun f => f.session_id == recW2.session_id) = [toFactRow recW2] :=
  (populate_fact_upsert create_database [recW] [recW2] recW2
    (by simp [recW2, List.filter])).1

/-! ### C8: no referential-integrity validation on fact inserts -/

/-- C8: `populate_fact` performs no referential-integrity validation
(the SQLite schema declares the foreign keys but the pipeline never
turns on enforcement, and the embedded operation is total): inserting a
record whose station identifier and date key appear in neither dimension
table succeeds, reads nothing from and writes nothing to the dimension
tables, and leaves a fact row whose two foreign keys dangle. -/
theorem populate_fact_no_fk_check (db : DB) (r : TransformedRecord)
    (hs : db.dimStation.any (fun s => s.station_id == r.station_id) = false)
    (ht : db.dimTime.any (fun t => t.time_id == r.date_key) = false) :
    (populate_fact db [r]).dimStation = db.dimStation ∧
    (populate_fact db [r]).dimTime = db.dimTime ∧
    toFactRow r ∈ (populate_fact db [r]).fact ∧
    (∃ f ∈ (populate_fact db [r]).fact,
      (∀ s ∈ (populate_fact db [r]).dimStation, s.station_id ≠ f.station_id) ∧
      (∀ t ∈ (populate_fact db [r]).dimTime, t.time_id ≠ f.time_id)) := by
  have hmem : toFactRow r ∈ (populate_fact db [r]).fact := by
    show toFactRow r ∈ insReplace FactRow.session_id db.fact (toFactRow r)
    unfold insReplace
    exact List.mem_append_right _ (List.mem_singleton.mpr rfl)
  refine ⟨rfl, rfl, hmem, toFactRow r, hmem, ?_, ?_⟩
  · intro s hsmem heq
    have : db.dimStation.any (fun s => s.station_id == r.station_id) = true :=
      List.any_eq_true.mpr ⟨s, hsmem, by simp [heq, toFactRow]⟩
    rw [hs] at this
    cases this
  · intro t htmem heq
    have : db.dimTime.any (fun t => t.time_id == r.date_key) = true :=
      List.any_eq_true.mpr ⟨t, htmem, by simp [heq, toFactRow]⟩
    rw [ht] at this
    cases this

/-- A store whose only dimension rows are for station 2 and date key
20240615 — neither matching `recW` (station 1, date key 20250101). -/
def dbC8 : DB :=
  ⟨[⟨2, "Station 2", "Location 2"⟩],
    [⟨20240615, "2024-06-15", "Saturday", 6, 2024⟩], []⟩

/-- Witness for C8: inserting `recW` into `dbC8` — whose dimension
tables do not contain `recW`'s station identifier or date key — still
inserts the fact row. -/
theorem populate_fact_no_fk_check_witness :
    toFactRow recW ∈ (populate_fact dbC8 [recW]).fact :=
  (populate_fact_no_fk_check dbC8 recW (by decide) (by decide)).2.2.1

/-! ### Helper lemmas: joins against a primary-key table -/

section JoinLemmas

variable {α : Type*} (key : α → Nat)

theorem filter_key_of_nodup {t : List α} (hnd : (t.map key).Nodup) (k : Nat) :
    t.filter (fun r => key r == k) = (t.find? (fun r => key r == k)).toList := by
  induction t with
  | nil => rfl
  | cons a t ih =>
    rw [List.map_cons, List.nodup_cons] at hnd
    rw [List.filter_cons, List.find?_cons]
    cases ha : (key a == k) with
    | true =>
      rw [if_pos rfl]
      have hk : key a = k := by simpa using ha
      have hnil : t.filter (fun r => key r == k) = [] := by
        rw [List.filter_eq_nil_iff]
        intro b hb hbk
        have hbkk : key b = k := by simpa using hbk
        have hmm : key b ∈ t.map key := List.mem_map_of_mem key hb
        rw [hbkk, ← hk] at hmm
        exact hnd.1 hmm
      simp [hnil]
    | false =>
      rw [if_neg (by simp)]
      exact ih hnd.2

theorem key_unique_of_nodup {t : List α} (hnd : (t.map key).Nodup)
    {a b : α} (ha : a ∈ t) (hb : b ∈ t) (hk : key a = key b) : a = b :=
  List.inj_on_of_nodup_map hnd ha hb hk

end JoinLemmas

@[simp] theorem dailyAgg_date (g : List FactRow) (d : String) :
    (dailyAgg g d).date = d := rfl

@[simp] theorem dailyAgg_avg_energy (g : List FactRow) (d : String) :
    (dailyAgg g d).avg_energy = (g.map (·.energy_kwh)).sum / (g.length : ℚ) := rfl

@[simp] theorem dailyAgg_avg_duration (g : List FactRow) (d : String) :
    (dailyAgg g d).avg_duration = (g.map (·.duration_hours)).sum / (g.length : ℚ) := rfl

/-- One fact row's contribution to the date-grouped join: with unique
time keys it is the fact itself when its time key resolves to a row of
date `d`, and nothing otherwise. -/
theorem timeJoin_head_group (dimTime : List DimTimeRow)
    (hnd : (dimTime.map (·.time_id)).Nodup) (d : String) (f : FactRow) :
    (((dimTime.filter (fun t => t.time_id == f.time_id)).map
        (fun t => (t, f))).filter (fun p => p.1.date == d)).map (·.2) =
      if dimTime.any (fun t => t.time_id == f.time_id && t.date == d) then [f]
      else [] := by
  rw [filter_key_of_nodup _ hnd]
  cases hfind : dimTime.find? (fun t => t.time_id == f.time_id) with
  | none =>
    have hany : dimTime.any (fun t => t.time_id == f.time_id && t.date == d) = false := by
      rw [Bool.eq_false_iff]
      intro hcon
      rcases List.any_eq_true.mp hcon with ⟨t, ht, htp⟩
      rw [Bool.and_eq_true] at htp
      exact (List.find?_eq_none.mp hfind t ht) htp.1
    rw [hany]
    rfl
  | some t0 =>
    have ht0key' := List.find?_some hfind
    have ht0key : (t0.time_id == f.time_id) = true := by simpa using ht0key'
    have ht0mem : t0 ∈ dimTime := List.mem_of_find?_eq_some hfind
    cases ht0d : (t0.date == d) with
    | true =>
      have hany : dimTime.any (fun t => t.time_id == f.time_id && t.date == d) = true :=
        List.any_eq_true.mpr ⟨t0, ht0mem, by rw [Bool.and_eq_true]; exact ⟨ht0key, ht0d⟩⟩
      rw [hany]
      simp [List.filter_cons, ht0d]
    | false =>
      have hany : dimTime.any (fun t => t.time_id == f.time_id && t.date == d) = false := by
        rw [Bool.eq_false_iff]
        intro hcon
        rcases List.any_eq_true.mp hcon with ⟨t, ht, htp⟩
        rw [Bool.and_eq_true] at htp
        have : t = t0 := key_unique_of_nodup (·.time_id) hnd ht ht0mem
          (by
            have h1 : t.time_id = f.time_id := by simpa using htp.1
            have h2 : t0.time_id = f.time_id := by simpa using ht0key
            show t.time_id = t0.time_id
            rw [h1, h2])
        rw [this, ht0d] at htp
        cases htp.2
      rw [hany]
      simp [List.filter_cons, ht0d]

/-- The date-`d` group of the time join equals the set of fact rows
whose time key resolves, through `dim_time`, to a row of date `d`. -/
theorem timeJoin_filter_date (dimTime : List DimTimeRow) (facts : List FactRow)
    (hnd : (dimTime.map (·.time_id)).Nodup) (d : String) :
    ((facts.flatMap (fun f => (dimTime.filter (fun t => t.time_id == f.time_id)).map
        (fun t => (t, f)))).filter (fun p => p.1.date == d)).map (·.2) =
      facts.filter (fun f => dimTime.any
        (fun t => t.time_id == f.time_id && t.date == d)) := by
  induction facts with
  | nil => rfl
  | cons f facts ih =>
    rw [List.flatMap_cons, List.filter_append, List.map_append, ih,
      timeJoin_head_group dimTime hnd d f, List.filter_cons]
    cases hc : dimTime.any (fun t => t.time_id == f.time_id && t.date == d) with
    | true => rw [if_pos rfl, if_pos rfl]; rfl
    | false => rw [if_neg (by simp), if_neg (by simp)]; rfl

/-! ### C9: daily time series -/

/-- C9: `compute_time_series` groups fact rows by the `dim_time` date
reached through the `time_id` join: its rows are ordered strictly
ascending by date, a date appears iff some fact row's time key resolves
to a `dim_time` row of that date, and each output row carries the mean
`energy_kwh` and mean `duration_hours` over all fact rows (across all
stations) whose time key resolves to that date. -/
theorem compute_time_series_spec (db : DB)
    (hnd : (db.dimTime.map (·.time_id)).Nodup) :
    (compute_time_series db).Pairwise (fun a b => a.date < b.date) ∧
    (∀ d : String, (∃ row ∈ compute_time_series db, row.date = d) ↔
      ∃ f ∈ db.fact, ∃ t ∈ db.dimTime, t.time_id = f.time_id ∧ t.date = d) ∧
    (∀ row ∈ compute_time_series db,
      0 < (db.fact.filter (fun f => db.dimTime.any
        (fun t => t.time_id == f.time_id && t.date == row.date))).length ∧
      row.avg_energy = ((db.fact.filter (fun f => db.dimTime.any
          (fun t => t.time_id == f.time_id && t.date == row.date))).map
            (·.energy_kwh)).sum /
        ((db.fact.filter (fun f => db.dimTime.any
          (fun t => t.time_id == f.time_id && t.date == row.date))).length : ℚ) ∧
      row.avg_duration = ((db.fact.filter (fun f => db.dimTime.any
          (fun t => t.time_id == f.time_id && t.date == row.date))).map
            (·.duration_hours)).sum /
        ((db.fact.filter (fun f => db.dimTime.any
          (fun t => t.time_id == f.time_id && t.date == row.date))).length : ℚ)) := by
  refine ⟨?_, ?_, ?_⟩
  · have h1 : (sortDedup ((timeJoin db).map (·.1.date))).Pairwise (· < ·) :=
      pairwise_sortDedup _
    exact List.pairwise_map.mpr (h1.imp (fun h => h))
  · intro d
    constructor
    · rintro ⟨row, hrow, rfl⟩
      simp only [compute_time_series] at hrow
      rcases List.mem_map.mp hrow with ⟨k, hk, rfl⟩
      rcases List.mem_map.mp (mem_sortDedup.mp hk) with ⟨p, hp, hpd⟩
      rcases List.mem_flatMap.mp hp with ⟨f, hf, hpf⟩
      rcases List.mem_map.mp hpf with ⟨t, htf, hpt⟩
      have htmem := List.mem_filter.mp htf
      subst hpt
      exact ⟨f, hf, t, htmem.1, by simpa using htmem.2, by simpa using hpd⟩
    · rintro ⟨f, hf, t, ht, htid, rfl⟩
      have hpair : (t, f) ∈ timeJoin db :=
        List.mem_flatMap.mpr ⟨f, hf,
          List.mem_map_of_mem _ (List.mem_filter.mpr ⟨ht, by simp [htid]⟩)⟩
      have hdmem : t.date ∈ (timeJoin db).map (·.1.date) :=
        List.mem_map_of_mem _ hpair
      exact ⟨dailyAgg (((timeJoin db).filter
          (fun p => p.1.date == t.date)).map (·.2)) t.date,
        List.mem_map_of_mem _ (mem_sortDedup.mpr hdmem), rfl⟩
  · intro row hrow
    simp only [compute_time_series] at hrow
    rcases List.mem_map.mp hrow with ⟨k, hk, rfl⟩
    have hgroup : ((timeJoin db).filter (fun p => p.1.date == k)).map (·.2) =
        db.fact.filter (fun f => db.dimTime.any
          (fun t => t.time_id == f.time_id && t.date == k)) :=
      timeJoin_filter_date db.dimTime db.fact hnd k
    rcases List.mem_map.mp (mem_sortDedup.mp hk) with ⟨p, hp, hpd⟩
    rcases List.mem_flatMap.mp hp with ⟨f, hf, hpf⟩
    rcases List.mem_map.mp hpf with ⟨t, htf, hpt⟩
    have htmem := List.mem_filter.mp htf
    have hfin : f ∈ db.fact.filter (fun f => db.dimTime.any
        (fun t => t.time_id == f.time_id && t.date == k)) := by
      refine List.mem_filter.mpr ⟨hf, List.any_eq_true.mpr ⟨t, htmem.1, ?_⟩⟩
      rw [Bool.and_eq_true]
      refine ⟨htmem.2, ?_⟩
      subst hpt
      simp only at hpd
      simp [hpd]
    have hpos : 0 < (db.fact.filter (fun f => db.dimTime.any
        (fun t => t.time_id == f.time_id && t.date == k))).length :=
      List.length_pos.mpr (List.ne_nil_of_mem hfin)
    refine ⟨by simpa using hpos, ?_, ?_⟩
    · simp only [dailyAgg_avg_energy, dailyAgg_date]
      rw [hgroup]
    · simp only [dailyAgg_avg_duration, dailyAgg_date]
      rw [hgroup]

/-- A store with one time dimension row and one fact row referencing it,
for the C9 witness. -/
def dbC9 : DB :=
  ⟨[], [⟨20250101, "2025-01-01", "Wednesday", 1, 2025⟩], [toFactRow recW]⟩

/-- Witness for C9: the primary-key hypothesis holds on the concrete
store and the resulting series is sorted ascending by date. -/
theorem compute_time_series_spec_witness :
    (compute_time_series dbC9).Pairwise (fun a b => a.date < b.date) :=
  (compute_time_series_spec dbC9 (by decide)).1

/-! ### C10: dashboard KPI query vs pipeline KPI query -/

/-- With unique station keys, the station join pairs each fact row whose
station identifier appears in `dim_station` with that identifier, and
drops every other fact row. -/
theorem stationJoin_aux (dimStation : List DimStationRow) (facts : List FactRow)
    (hnd : (dimStation.map (·.station_id)).Nodup) :
    facts.flatMap (fun f => (dimStation.filter
        (fun s => s.station_id == f.station_id)).map (fun s => (s.station_id, f))) =
      (facts.filter (fun f => dimStation.any
        (fun s => s.station_id == f.station_id))).map (fun f => (f.station_id, f)) := by
  induction facts with
  | nil => rfl
  | cons f facts ih =>
    rw [List.flatMap_cons, ih, List.filter_cons, filter_key_of_nodup _ hnd]
    cases hfind : dimStation.find? (fun s => s.station_id == f.station_id) with
    | none =>
      have hany : dimStation.any (fun s => s.station_id == f.station_id) = false := by
        rw [Bool.eq_false_iff]
        intro hcon
        rcases List.any_eq_true.mp hcon with ⟨s, hs, hsp⟩
        exact (List.find?_eq_none.mp hfind s hs) hsp
      rw [hany, if_neg (by simp)]
      rfl
    | some s0 =>
      have hkey' := List.find?_some hfind
      have hs0 : s0.station_id = f.station_id := by simpa using hkey'
      have hmem : s0 ∈ dimStation := List.mem_of_find?_eq_some hfind
      have hany : dimStation.any (fun s => s.station_id == f.station_id) = true :=
        List.any_eq_true.mpr ⟨s0, hmem, by simp [hs0]⟩
      rw [hany, if_pos rfl]
      simp [hs0]

/-- A store holding one fact row whose station identifier has no
`dim_station` row at all. -/
def dbC10 : DB := ⟨[], [], [toFactRow recW]⟩

/-- C10: when every fact row's station identifier is present in
`dim_station` (with its primary-key invariant), the dashboard's
`load_kpis` returns exactly the pipeline's `compute_kpis`; in general it
equals `compute_kpis` restricted to the fact rows whose station
identifier is present, so a fact row with no station dimension row is
silently omitted — concretely, on a store whose `dim_station` is empty,
`load_kpis` returns no rows while `compute_kpis` still counts the fact
row. -/
theorem load_kpis_vs_compute_kpis (db : DB)
    (hnd : (db.dimStation.map (·.station_id)).Nodup) :
    load_kpis db = compute_kpis (db.fact.filter
      (fun f => db.dimStation.any (fun s => s.station_id == f.station_id))) ∧
    ((∀ f ∈ db.fact, db.dimStation.any
        (fun s => s.station_id == f.station_id) = true) →
      load_kpis db = compute_kpis db.fact) ∧
    load_kpis dbC10 = [] ∧
    compute_kpis dbC10.fact ≠ [] := by
  have hj : stationJoin db = (db.fact.filter (fun f => db.dimStation.any
      (fun s => s.station_id == f.station_id))).map (fun f => (f.station_id, f)) :=
    stationJoin_aux db.dimStation db.fact hnd
  have hmain : load_kpis db = compute_kpis (db.fact.filter
      (fun f => db.dimStation.any (fun s => s.station_id == f.station_id))) := by
    simp only [load_kpis, compute_kpis, hj]
    have hkeys : ((db.fact.filter (fun f => db.dimStation.any
        (fun s => s.station_id == f.station_id))).map
          (fun f => (f.station_id, f))).map (·.1) =
        (db.fact.filter (fun f => db.dimStation.any
          (fun s => s.station_id == f.station_id))).map (·.station_id) := by
      rw [List.map_map]
      rfl
    rw [hkeys]
    refine List.map_congr_left ?_
    intro s _
    rw [loadAgg_eq_kpiAgg]
    congr 1
    rw [List.filter_map, List.map_map]
    have h1 : ((fun p : Nat × FactRow => p.1 == s) ∘ (fun f : FactRow => (f.station_id, f))) =
        (fun f : FactRow => f.station_id == s) := rfl
    have h2 : ((fun p : Nat × FactRow => p.2) ∘ (fun f : FactRow => (f.station_id, f))) =
        id := rfl
    rw [h1, h2, List.map_id]
  refine ⟨hmain, ?_, rfl, ?_⟩
  · intro hcov
    rw [hmain, List.filter_eq_self.mpr hcov]
  · show kpiAgg (dbC10.fact.filter (fun f => f.station_id == 1)) 1 :: [] ≠ []
    exact List.cons_ne_nil _ _

/-- Witness for C10: the primary-key hypothesis holds on the concrete
store with an empty station dimension, on which `load_kpis` silently
returns nothing while `compute_kpis` does not. -/
theorem load_kpis_vs_compute_kpis_witness :
    load_kpis dbC10 = [] ∧ compute_kpis dbC10.fact ≠ [] :=
  ⟨(load_kpis_vs_compute_kpis dbC10 (by decide)).2.2.1,
    (load_kpis_vs_compute_kpis dbC10 (by decide)).2.2.2⟩

/-! ### C2: generator determinism and draw order -/

/-- Tracing a session: the traced generator produces the same CSV line
and underlying state as the untraced one and appends exactly the
session's seven draws, in source order. -/
theorem sessionLine_withTrace {σ : Type} (R : RandomLib σ) (k i : Nat) (s : σ)
    (tr : List DrawCall) :
    sessionLine (withTrace R) k i (s, tr) =
      ((sessionLine R k i s).1, ((sessionLine R k i s).2, tr ++ sessionDrawOrder k)) := by
  simp [sessionLine, withTrace, sessionDrawOrder, List.append_assoc]

/-- Tracing a whole run: the traced generator produces the same lines
and state as the untraced one, and its trace is one copy of the
per-session draw order for each generated session. -/
theorem genRows_withTrace {σ : Type} (R : RandomLib σ) (k : Nat) :
    ∀ (count i : Nat) (s : σ) (tr : List DrawCall),
      genRows (withTrace R) k count i (s, tr) =
        ((genRows R k count i s).1,
          ((genRows R k count i s).2,
            tr ++ (List.replicate count (sessionDrawOrder k)).flatten)) := by
  intro count
  induction count with
  | zero =>
    intro i s tr
    simp [genRows]
  | succ m ih =>
    intro i s tr
    simp only [genRows]
    rw [sessionLine_withTrace]
    rw [ih (i + 1) (sessionLine R k i s).2 (tr ++ sessionDrawOrder k)]
    simp [List.replicate_succ, List.append_assoc]

/-- C2: for any generator implementation, any two target paths, any
positive session and station counts and any seed, the two runs write
byte-identical file content (the content does not depend on the target
path, only on the counts and the seed); moreover the traced run produces
exactly the same rows, and its per-session draws are, for every session,
exactly: station (`randint 1 k`), start-day (`randint 0 29`), start-hour
(`randint 0 23`), start-minute (`randint 0 59`), duration
(`randint 15 240`), energy-intensity (`uniform 0.5 0.8`), success
(`random`), in that order. -/
theorem generate_synthetic_data_deterministic {σ : Type} (R : RandomLib σ)
    (p1 p2 : String) (n_sessions n_stations : Nat) (seed : Int)
    (hn : 0 < n_sessions) (hk : 0 < n_stations) :
    generate_synthetic_data R p1 n_sessions n_stations seed =
      generate_synthetic_data R p2 n_sessions n_stations seed ∧
    (genRows (withTrace R) n_stations n_sessions 1
        ((withTrace R).seedState seed)).1 =
      (genRows R n_stations n_sessions 1 (R.seedState seed)).1 ∧
    (genRows (withTrace R) n_stations n_sessions 1
        ((withTrace R).seedState seed)).2.2 =
      (List.replicate n_sessions (sessionDrawOrder n_stations)).flatten := by
  refine ⟨rfl, ?_, ?_⟩
  · show (genRows (withTrace R) n_stations n_sessions 1 (R.seedState seed, [])).1 = _
    rw [genRows_withTrace]
  · show (genRows (withTrace R) n_stations n_sessions 1 (R.seedState seed, [])).2.2 = _
    rw [genRows_withTrace]
    simp

/-- A concrete generator implementation (a small linear congruential
stand-in with the `random` module's interface) for the C2 witness. -/
def lcgRandomLib : RandomLib Nat where
  seedState z := z.natAbs % 2147483647
  randint s lo hi := (lo + s % (hi + 1 - lo), (s * 1103515245 + 12345) % 2147483648)
  uniform s a b :=
    (a + (b - a) * (((s % 1000 : Nat) : ℚ) / 1000),
      (s * 1103515245 + 12345) % 2147483648)
  random s :=
    ((((s % 1000 : Nat) : ℚ) / 1000), (s * 1103515245 + 12345) % 2147483648)

/-- Witness for C2: with a concrete generator, concrete distinct paths,
two sessions, three stations and seed 42, the two runs' contents agree
and the trace is two copies of the seven-draw session order. -/
theorem generate_synthetic_data_deterministic_witness :
    generate_synthetic_data lcgRandomLib "run1.csv" 2 3 42 =
      generate_synthetic_data lcgRandomLib "run2.csv" 2 3 42 ∧
    (genRows (withTrace lcgRandomLib) 3 2 1
        ((withTrace lcgRandomLib).seedState 42)).2.2 =
      (List.replicate 2 (sessionDrawOrder 3)).flatten :=
  ⟨(generate_synthetic_data_deterministic lcgRandomLib "run1.csv" "run2.csv" 2 3 42
      (by decide) (by decide)).1,
    (generate_synthetic_data_deterministic lcgRandomLib "run1.csv" "run2.csv" 2 3 42
      (by decide) (by decide)).2.2⟩

end EV

